import Mathlib

set_option maxRecDepth 4096

/-!
Verification development for the `ada_core` repository.

Shallow embedding conventions:
* Python floats are modelled as rationals (`ℚ`); none of the verified claims
  hinges on floating-point rounding.
* Python ints are modelled as `Int`.
* Python exceptions (the `Exception` hierarchy) are modelled by the `PyExc`
  type; fallible code returns `Except PyExc α`, and a `try/except Exception`
  block is `pyTry` / `pyCatchAll`.
* `Autodesk.Revit.DB.XYZ` is a triple of coordinates.
* `UnitUtils` millimetre/feet conversions are exact in ℚ: mm → ft is
  multiplication by `FT_PER_MM` (1/304.8), as in the module's own constants.
-/

/- Batteries marks the `Rat` field operations `@[irreducible]`, which blocks
kernel evaluation of concrete rational arithmetic in `decide`/`rfl` proofs;
restore the ordinary reducibility for this development. -/
attribute [local semireducible] Rat.mul Rat.add Rat.sub Rat.inv Rat.ofScientific

/-- Model of Python exceptions (the `Exception` hierarchy). -/
inductive PyExc where
  | ioError (msg : String)
  | jsonError
  | attrError
  | typeError
  | nameError (n : String)
  deriving DecidableEq, Repr

/-- `try: body except Exception as e: handler e` where the handler may itself
return or re-raise. -/
def pyTry {α : Type} (body : Except PyExc α) (handler : PyExc → Except PyExc α) :
    Except PyExc α :=
  match body with
  | .ok a => .ok a
  | .error e => handler e

/-- `try: body except Exception: return dflt`-style catch-all that cannot re-raise. -/
def pyCatchAll {α : Type} (body : Except PyExc α) (handler : PyExc → α) : α :=
  match body with
  | .ok a => a
  | .error e => handler e

/-- Python `str.strip()`: drop leading and trailing whitespace (modelled with
`Char.isWhitespace`; the strings this code strips are ASCII). -/
def pyStrip (s : String) : String :=
  String.mk (((s.data.dropWhile Char.isWhitespace).reverse.dropWhile
    Char.isWhitespace).reverse)

/-- Python `str.lower()` (ASCII case folding; every string this code lowers is
ASCII). -/
def pyLower (s : String) : String :=
  String.mk (s.data.map Char.toLower)

/-- Python `str.endswith(suffixStr)`. -/
def pyEndsWith (s suffixStr : String) : Bool :=
  let a := s.data
  let b := suffixStr.data
  decide (b.length ≤ a.length) && a.drop (a.length - b.length) == b

/-- Lexicographic comparison by code point, as Python compares strings. -/
def charListLe : List Char → List Char → Bool
  | [], _ => true
  | _ :: _, [] => false
  | a :: as, b :: bs => if a = b then charListLe as bs else decide (a.toNat < b.toNat)

/-- Model of `Autodesk.Revit.DB.XYZ` (sheet coordinates, in feet). -/
structure XYZ where
  x : ℚ
  y : ℚ
  z : ℚ
  deriving DecidableEq, Repr

/-! ## units.py -/

/-- `MM_PER_FT = 304.8` (units.py). -/
def MM_PER_FT : ℚ := 3048 / 10

/-- `FT_PER_MM = 1.0 / MM_PER_FT` (units.py). -/
def FT_PER_MM : ℚ := 1 / MM_PER_FT

/-- `mm_to_ft`: millimetres → internal feet.  `UnitUtils.ConvertToInternalUnits`
for millimetres is exactly division by 304.8, which agrees with the module's own
last-resort branch `float(mm) * FT_PER_MM`. -/
def mm_to_ft (mm : ℚ) : ℚ := mm * FT_PER_MM

/-- `ft_to_mm`: internal feet → millimetres (exact in ℚ). -/
def ft_to_mm (ft : ℚ) : ℚ := ft * MM_PER_FT

/-- `floor_mm` (units.py lines 104-108).  The module never binds the name
`math` at module scope (`import math` occurs only *inside* `deg_to_rad` and
`rad_to_deg`, binding a function-local name), so evaluating the expression
`math.floor(mm / step_mm)` on the `step_mm > 0` path raises `NameError`.
That Python semantics is embedded as `.error (.nameError "math")`. -/
def floor_mm (value_ft : ℚ) (step_mm : ℚ) : Except PyExc ℚ :=
  let mm := ft_to_mm value_ft
  if step_mm ≤ 0 then .ok mm
  else .error (.nameError "math")

/-- `ceil_mm` (units.py lines 110-114); same unbound-`math` situation as
`floor_mm`. -/
def ceil_mm (value_ft : ℚ) (step_mm : ℚ) : Except PyExc ℚ :=
  let mm := ft_to_mm value_ft
  if step_mm ≤ 0 then .ok mm
  else .error (.nameError "math")

/-! ## layout.py -/

/-- `class HAnchor(Enum)` with values "left" / "center" / "right". -/
inductive HAnchor where
  | left
  | center
  | right
  deriving DecidableEq, Repr

/-- `class VAnchor(Enum)` with values "top" / "center" / "bottom". -/
inductive VAnchor where
  | top
  | center
  | bottom
  deriving DecidableEq, Repr

/-- A Python argument that may be an enum member, a string, or any other
object (only `isinstance` checks are applied to it). -/
inductive AnchorArg (α : Type) where
  | enum (a : α)
  | str (s : String)
  | other
  deriving DecidableEq, Repr

/-- Iteration order of `for e in HAnchor` with each member's `.value`. -/
def hAnchorValues : List (HAnchor × String) :=
  [(HAnchor.left, "left"), (HAnchor.center, "center"), (HAnchor.right, "right")]

/-- Iteration order of `for e in VAnchor` with each member's `.value`. -/
def vAnchorValues : List (VAnchor × String) :=
  [(VAnchor.top, "top"), (VAnchor.center, "center"), (VAnchor.bottom, "bottom")]

/-- `_coerce_anchor(val, enum_cls, default)` (layout.py lines 19-27):
enum members pass through; strings are stripped/lowercased and matched against
the members' `.value`s in iteration order; everything else yields `default`. -/
def coerce_anchor {α : Type} (values : List (α × String)) (val : AnchorArg α)
    (dflt : α) : α :=
  match val with
  | .enum a => a
  | .str s =>
      let t := pyLower (pyStrip s)
      match values.find? (fun p => p.2 = t) with
      | some p => p.1
      | none => dflt
  | .other => dflt

/-- `min(p1.X, p2.X)` component of `_sorted_box`. -/
def minX (p1 p2 : XYZ) : ℚ := min p1.x p2.x

/-- `max(p1.X, p2.X)` component of `_sorted_box`. -/
def maxX (p1 p2 : XYZ) : ℚ := max p1.x p2.x

/-- `min(p1.Y, p2.Y)` component of `_sorted_box`. -/
def minY (p1 p2 : XYZ) : ℚ := min p1.y p2.y

/-- `max(p1.Y, p2.Y)` component of `_sorted_box`. -/
def maxY (p1 p2 : XYZ) : ℚ := max p1.y p2.y

/-- `_sorted_box(p1, p2)` (layout.py lines 29-31). -/
def sorted_box (p1 p2 : XYZ) : ℚ × ℚ × ℚ × ℚ :=
  (minX p1 p2, maxX p1 p2, minY p1 p2, maxY p1 p2)

/-- `avail_w_ft = max(0.0, max_x - min_x)`. -/
def availWft (p1 p2 : XYZ) : ℚ := max 0 (maxX p1 p2 - minX p1 p2)

/-- `avail_h_ft = max(0.0, max_y - min_y)`. -/
def availHft (p1 p2 : XYZ) : ℚ := max 0 (maxY p1 p2 - minY p1 p2)

/-- `avail_w_mm = avail_w_ft / _FT_PER_MM`. -/
def availWmm (p1 p2 : XYZ) : ℚ := availWft p1 p2 / FT_PER_MM

/-- `avail_h_mm = avail_h_ft / _FT_PER_MM`. -/
def availHmm (p1 p2 : XYZ) : ℚ := availHft p1 p2 / FT_PER_MM

/-- The default cell `(max(min_cell_w_mm, 50.0), max(min_cell_h_mm, 50.0))`. -/
def defaultSize (minW minH : ℚ) : ℚ × ℚ := (max minW 50, max minH 50)

/-- Size-list normalisation (layout.py lines 64-73): no/empty `sizes_mm` gives
`count` default cells; otherwise the list is trimmed to `count` and padded with
default cells up to `count`. -/
def normSizes (count : Nat) (sizes_mm : Option (List (ℚ × ℚ)))
    (minW minH : ℚ) : List (ℚ × ℚ) :=
  match sizes_mm with
  | none => List.replicate count (defaultSize minW minH)
  | some l =>
      if l = [] then List.replicate count (defaultSize minW minH)
      else
        let base := l.take count
        base ++ List.replicate (count - base.length) (defaultSize minW minH)

/-- `max_h_mm = max(h for _, h in sizes) if sizes else max(min_cell_h_mm, 50.0)`. -/
def maxHmm (sizes : List (ℚ × ℚ)) (minH : ℚ) : ℚ :=
  match sizes with
  | [] => max minH 50
  | s :: rest => (rest.map Prod.snd).foldl max s.2

/-- The `while rows < max_rows` loop of layout.py lines 78-84, fuelled; the
fuel passed by `computeRows` dominates the number of iterations. -/
def rowsLoop (maxRows : Int) (mh gapY availH : ℚ) : Nat → Int → Int
  | 0, rows => rows
  | fuel + 1, rows =>
      if rows < maxRows then
        if (rows : ℚ) * mh + ((rows : ℚ) - 1) * gapY ≤ availH then
          rowsLoop maxRows mh gapY availH fuel (rows + 1)
        else rows
      else rows

/-- Number of rows (layout.py lines 77-87): the while loop starting at 1,
then the `if rows > max_rows: rows = max_rows` clamp. -/
def computeRows (maxRows : Int) (mh gapY availH : ℚ) : Int :=
  let r := rowsLoop maxRows mh gapY availH maxRows.toNat 1
  if r > maxRows then maxRows else r

/-- The inner packing loop of one row (layout.py lines 115-124): the list
argument is the suffix of `sizes` starting at `placed + views_in_row`, so
running out of list is exactly `placed + views_in_row >= count`. -/
def packRow (maxPerRow : Int) (gapX minW minH : ℚ) :
    List (ℚ × ℚ) → Int → ℚ → List (ℚ × ℚ)
  | [], _, _ => []
  | (w, h) :: rest, vir, remaining =>
      if vir < maxPerRow then
        let need := w + (if vir = 0 then 0 else gapX)
        if need ≤ remaining ∧ minW ≤ w ∧ minH ≤ h then
          (w, h) :: packRow maxPerRow gapX minW minH rest (vir + 1) (remaining - need)
        else []
      else []

/-- The `for r in range(rows)` packing loop (layout.py lines 107-128) reduced
to the row contents: stops early when all items are placed
(`placed >= count`, i.e. the remaining suffix is empty) or when a row packs
nothing. -/
def packRows (maxPerRow : Int) (gapX minW minH availW : ℚ) :
    Nat → List (ℚ × ℚ) → List (List (ℚ × ℚ))
  | 0, _ => []
  | r + 1, rest =>
      if rest.isEmpty then []
      else
        let row := packRow maxPerRow gapX minW minH rest 0 availW
        if row.isEmpty then []
        else row :: packRows maxPerRow gapX minW minH availW r (rest.drop row.length)

/-- Horizontal row anchoring (layout.py lines 131-137). -/
def startX (hA : HAnchor) (mnx mxx availW totalRowW : ℚ) : ℚ :=
  match hA with
  | .left => mnx
  | .right => mxx - totalRowW
  | .center => mnx + (availW - totalRowW) / 2

/-- `row_bottom_at(r)` for the three vertical anchors (layout.py lines 95-105);
`totalH` is `rows * row_height_ft + (rows - 1) * gap_y_ft`, used only by the
CENTER branch, with `rows` the *computed* row count. -/
def rowBottomAt (vA : VAnchor) (mny mxy availH rowH gapYft totalH : ℚ)
    (r : Nat) : ℚ :=
  match vA with
  | .top => (mxy - rowH) - (r : ℚ) * (rowH + gapYft)
  | .bottom => mny + (r : ℚ) * (rowH + gapYft)
  | .center => (mxy - ((availH - totalH) / 2 + rowH)) - (r : ℚ) * (rowH + gapYft)

/-- The inner `for i in range(views_in_row)` loop (layout.py lines 139-147):
positions are cell centers, advancing `cur_x` by cell width plus gap. -/
def rowPositions (gapXft bottom : ℚ) : ℚ → List (ℚ × ℚ) → List XYZ
  | _, [] => []
  | curX, (w, h) :: rest =>
      ⟨curX + mm_to_ft w / 2, bottom + mm_to_ft h / 2, 0⟩ ::
        rowPositions gapXft bottom (curX + mm_to_ft w + gapXft) rest

/-- `total_row_w_ft = mm_to_ft(sum(row_ws) + (views_in_row - 1) * gap_x_mm)`. -/
def totalRowWft (gapX : ℚ) (row : List (ℚ × ℚ)) : ℚ :=
  mm_to_ft ((row.map Prod.fst).sum + ((row.length : ℚ) - 1) * gapX)

/-- Emission of positions for the packed rows, keeping the row index `r` for
`row_bottom_at(r)`. -/
def buildRows (hA : HAnchor) (mnx mxx availW gapX gapXft : ℚ)
    (bottomAt : Nat → ℚ) : Nat → List (List (ℚ × ℚ)) → List XYZ
  | _, [] => []
  | r, row :: rest =>
      rowPositions gapXft (bottomAt r) (startX hA mnx mxx availW (totalRowWft gapX row)) row
        ++ buildRows hA mnx mxx availW gapX gapXft bottomAt (r + 1) rest

/-- Index in the flattened output at which row `r`'s positions start: the
total number of positions emitted by the rows before it. -/
def rowStartIdx (packed : List (List (ℚ × ℚ))) (r : Nat) : Nat :=
  ((packed.take r).map List.length).sum

/-- The packed rows of `grid_positions_for_area` (the contents of each emitted
row, in order). -/
def gridPacked (count : Int) (p1 p2 : XYZ) (sizes_mm : Option (List (ℚ × ℚ)))
    (gapX gapY : ℚ) (maxRows maxPerRow : Int) (minW minH : ℚ) :
    List (List (ℚ × ℚ)) :=
  let sizes := normSizes count.toNat sizes_mm minW minH
  packRows maxPerRow gapX minW minH (availWmm p1 p2)
    (computeRows maxRows (maxHmm sizes minH) gapY (availHmm p1 p2)).toNat sizes

/-- Body of `grid_positions_for_area` after the `count <= 0` early return and
the anchor coercions. -/
def gridCore (count : Int) (p1 p2 : XYZ) (sizes_mm : Option (List (ℚ × ℚ)))
    (gapX gapY : ℚ) (maxRows maxPerRow : Int) (hA : HAnchor) (vA : VAnchor)
    (minW minH : ℚ) : List XYZ :=
  let sizes := normSizes count.toNat sizes_mm minW minH
  let mh := maxHmm sizes minH
  let rowsInt := computeRows maxRows mh gapY (availHmm p1 p2)
  let gapXft := mm_to_ft gapX
  let gapYft := mm_to_ft gapY
  let rowHft := mm_to_ft mh
  let totalHft := (rowsInt : ℚ) * rowHft + ((rowsInt : ℚ) - 1) * gapYft
  buildRows hA (minX p1 p2) (maxX p1 p2) (availWft p1 p2) gapX gapXft
    (fun r => rowBottomAt vA (minY p1 p2) (maxY p1 p2) (availHft p1 p2) rowHft gapYft totalHft r)
    0 (gridPacked count p1 p2 sizes_mm gapX gapY maxRows maxPerRow minW minH)

/-- Closed-form left edge of cell `j` in a packed row anchored at `x0`: the
widths of the previous cells plus `j` inter-cell gaps (all converted to
feet separately, exactly as the running `cur_x` accumulates them). -/
def cellLeft (x0 gapXft : ℚ) (row : List (ℚ × ℚ)) (j : Nat) : ℚ :=
  x0 + ((row.take j).map (fun s => mm_to_ft s.1)).sum + (j : ℚ) * gapXft

/-- Closed-form description of one row's returned points, following the
spec's words: element `j` is the *center of its assigned cell* — the cell's
left edge plus half the item's width, the row bottom plus half the item's
height, `Z = 0`. -/
def specRow (x0 bottom gapXft : ℚ) (row : List (ℚ × ℚ)) : List XYZ :=
  (List.range row.length).map (fun j =>
    ⟨cellLeft x0 gapXft row j + mm_to_ft (row.getD j (0, 0)).1 / 2,
     bottom + mm_to_ft (row.getD j (0, 0)).2 / 2, 0⟩)

/-- Closed-form variant of `buildRows` built from `specRow`. -/
def specBuildRows (hA : HAnchor) (mnx mxx availW gapX gapXft : ℚ)
    (bottomAt : Nat → ℚ) : Nat → List (List (ℚ × ℚ)) → List XYZ
  | _, [] => []
  | r, row :: rest =>
      specRow (startX hA mnx mxx availW (totalRowWft gapX row)) (bottomAt r) gapXft row
        ++ specBuildRows hA mnx mxx availW gapX gapXft bottomAt (r + 1) rest

/-- Closed-form (per-index) description of the whole returned list, to be
proved equal to `grid_positions_for_area`. -/
def specGrid (count : Int) (p1 p2 : XYZ) (sizes_mm : Option (List (ℚ × ℚ)))
    (gapX gapY : ℚ) (maxRows maxPerRow : Int)
    (h_anchor : AnchorArg HAnchor) (v_anchor : AnchorArg VAnchor)
    (minW minH : ℚ) : List XYZ :=
  if count ≤ 0 then []
  else
    let sizes := normSizes count.toNat sizes_mm minW minH
    let mh := maxHmm sizes minH
    let rowsInt := computeRows maxRows mh gapY (availHmm p1 p2)
    let gapXft := mm_to_ft gapX
    let gapYft := mm_to_ft gapY
    let rowHft := mm_to_ft mh
    let totalHft := (rowsInt : ℚ) * rowHft + ((rowsInt : ℚ) - 1) * gapYft
    specBuildRows (coerce_anchor hAnchorValues h_anchor HAnchor.left)
      (minX p1 p2) (maxX p1 p2) (availWft p1 p2) gapX gapXft
      (fun r => rowBottomAt (coerce_anchor vAnchorValues v_anchor VAnchor.top)
        (minY p1 p2) (maxY p1 p2) (availHft p1 p2) rowHft gapYft totalHft r)
      0 (gridPacked count p1 p2 sizes_mm gapX gapY maxRows maxPerRow minW minH)

/-- `grid_positions_for_area` (layout.py lines 33-151). -/
def grid_positions_for_area (count : Int) (p1 p2 : XYZ)
    (sizes_mm : Option (List (ℚ × ℚ)))
    (gapX gapY : ℚ) (maxRows maxPerRow : Int)
    (h_anchor : AnchorArg HAnchor) (v_anchor : AnchorArg VAnchor)
    (minW minH : ℚ) : List XYZ :=
  if count ≤ 0 then []
  else
    gridCore count p1 p2 sizes_mm gapX gapY maxRows maxPerRow
      (coerce_anchor hAnchorValues h_anchor HAnchor.left)
      (coerce_anchor vAnchorValues v_anchor VAnchor.top)
      minW minH

/-! ## errors.py -/

/-- `errors.swallow(fn, *a, **kw)` (errors.py lines 2-6): the argument tuple is
collapsed into a single value; the Python pair `(True, r)` / `(False, e)` is a
`Bool` paired with a sum. -/
def swallow {α β : Type} (fn : α → Except PyExc β) (a : α) :
    Except PyExc (Bool × (β ⊕ PyExc)) :=
  pyTry ((fn a).map (fun r => (true, Sum.inl r)))
    (fun e => .ok (false, Sum.inr e))

/-- The `for _ in range(int(times))` loop of `errors.retry` (errors.py lines
8-16).  `fn` maps the attempt number to that call's outcome; `catchable`
models membership in the `exceptions` tuple (a non-matching exception
propagates out of the loop); `last` is the variable of the same name. -/
def retryAux {β : Type} (catchable : PyExc → Bool) (fn : Nat → Except PyExc β) :
    Nat → Nat → Option PyExc → Except PyExc (Option β)
  | 0, _, last =>
      match last with
      | some e => .error e
      | none => .ok none
  | n + 1, i, _last =>
      match fn i with
      | .ok r => .ok (some r)
      | .error e => if catchable e then retryAux catchable fn n (i + 1) (some e) else .error e

/-- `errors.retry(times, exceptions, fn, *a, **kw)`: the loop above followed by
`if last: raise last` (an exception object is truthy), falling through to an
implicit `return None`. -/
def retry {β : Type} (times : Int) (catchable : PyExc → Bool)
    (fn : Nat → Except PyExc β) : Except PyExc (Option β) :=
  retryAux catchable fn times.toNat 0 none

/-! ## templates.py

The filesystem is modelled as a list of directories plus directory entries;
the `json` module is modelled semantically: a readable well-formed file holds
the parsed JSON value directly, `invalid` marks a readable file on which
`json.load` raises, `unreadable` a file on which `open`/read raises. -/

/-- Parsed JSON values (Python's dict/list/str/number/bool/None images). -/
inductive Json where
  | null
  | bool (b : Bool)
  | num (q : ℚ)
  | str (s : String)
  | arr (xs : List Json)
  | obj (kvs : List (String × Json))

/-- Python truthiness of a parsed JSON value (`None`, `False`, `0`, `""`,
`[]`, `{}` are falsy). -/
def truthy : Json → Bool
  | .null => false
  | .bool b => b
  | .num q => q != 0
  | .str s => s ≠ ""
  | .arr xs => !xs.isEmpty
  | .obj kvs => !kvs.isEmpty

/-- `d.get(k)` on a parsed JSON object: first binding wins, missing keys give
`None` (`Json.null`). -/
def dictGet (kvs : List (String × Json)) (k : String) : Option Json :=
  (kvs.find? (fun kv => kv.1 = k)).map (fun kv => kv.2)

/-- `v.get(k, dflt)` on an arbitrary value: raises `AttributeError` unless `v`
is a dict. -/
def pyGetD (v : Json) (k : String) (dflt : Json) : Except PyExc Json :=
  match v with
  | .obj kvs => .ok ((dictGet kvs k).getD dflt)
  | _ => .error .attrError

/-- Containers are unhashable in Python: using one as a dict key raises
`TypeError`. -/
def isContainer : Json → Bool
  | .arr _ => true
  | .obj _ => true
  | _ => false

/-- Content of one file in the modelled filesystem. -/
inductive FileContent where
  | json (j : Json)
  | invalid
  | unreadable

/-- Modelled filesystem: existing directories and `(directory, filename,
content)` entries, in directory-listing order. -/
structure FS where
  dirs : List String
  entries : List (String × String × FileContent)

/-- `os.path.join(dir, fname)` (modelled with a fixed separator). -/
def pathJoin (d fname : String) : String := d ++ "/" ++ fname

/-- `open(path, "r")` followed by `json.load`: `IOError` when the path is
missing or unreadable, a JSON decoding error when the content is malformed. -/
def fsOpenLoad (fs : FS) (path : String) : Except PyExc Json :=
  match fs.entries.find? (fun e => pathJoin e.1 e.2.1 = path) with
  | none => .error (.ioError path)
  | some (_, _, .unreadable) => .error (.ioError path)
  | some (_, _, .invalid) => .error .jsonError
  | some (_, _, .json j) => .ok j

/-- `open(path, "w")` followed by `json.dump(payload, f, indent=2)`: succeeds
exactly when the target directory exists, prepending the new entry (a later
read of the same path sees it first). -/
def fsWrite (fs : FS) (d fname : String) (j : Json) : Except PyExc FS :=
  if d ∈ fs.dirs then .ok ⟨fs.dirs, (d, fname, .json j) :: fs.entries⟩
  else .error (.ioError (pathJoin d fname))

/-- `TemplateManager` (templates.py lines 53-64): the two resolved
directories. -/
structure TemplateManager where
  templates_dir : String
  projects_dir : String

/-- `TemplateManager.load_json` (templates.py lines 144-149): the whole body is
wrapped in `try: ... except Exception: return None`. -/
def load_json (fs : FS) (filepath : String) : Option Json :=
  pyCatchAll ((fsOpenLoad fs filepath).map some) (fun _ => none)

/-- The filename sanitiser of `save_project_config` (templates.py line 134):
`"".join(c if (c.isalnum() or c in "_- ") else "_" for c in (name_hint or
"project")).strip() or "project"`. -/
def sanitizeHint (name_hint : String) : String :=
  let base := if name_hint = "" then "project" else name_hint
  let s := String.mk (base.data.map
    (fun c => if c.isAlphanum || c = '_' || c = '-' || c = ' ' then c else '_'))
  let t := pyStrip s
  if t = "" then "project" else t

/-- `TemplateManager.save_project_config` (templates.py lines 127-142).  `ts`
is the `strftime("%Y%m%d_%H%M%S")` timestamp, taken as an input; the result is
the Python return value paired with the filesystem after the call. -/
def save_project_config (fs : FS) (tm : TemplateManager) (payload : Json)
    (name_hint : String) (ts : String) : Option String × FS :=
  pyCatchAll
    ((fsWrite fs tm.projects_dir (sanitizeHint name_hint ++ "__" ++ ts ++ ".json")
        payload).map
      (fun fs' =>
        (some (pathJoin tm.projects_dir (sanitizeHint name_hint ++ "__" ++ ts ++ ".json")),
          fs')))
    (fun _ => (none, fs))

/-- `os.path.splitext(fn)[0].replace("_", " ")` for a filename already known
to end (case-insensitively) in `.json` (so the extension is the trailing five
characters); the single-character replace is done character-wise. -/
def displayFallback (fn : String) : String :=
  String.mk ((fn.data.take (fn.data.length - 5)).map
    (fun c => if c = '_' then ' ' else c))

/-- One entry value of the dict built by `list_templates`:
`{"filepath": fp, "data": data, "description": desc}`. -/
structure TplEntry where
  filepath : String
  data : Json
  description : Json

/-- `info = (data.get("template_info") or {}) if isinstance(data, dict) else {}`
(templates.py line 89): `data.get` gives `None` for a missing key, and `or {}`
replaces any falsy value by the empty dict. -/
def tplInfo (data : Json) : Json :=
  match data with
  | .obj kvs =>
      let v := (dictGet kvs "template_info").getD .null
      if truthy v then v else .obj []
  | _ => .obj []

/-- `disp = info.get("name") or os.path.splitext(fn)[0].replace("_", " ")`. -/
def tplDisp (fn : String) (nameV : Json) : Json :=
  if truthy nameV then nameV else .str (displayFallback fn)

/-- The body of one `list_templates` loop iteration (templates.py lines
85-92), before the surrounding `except Exception: continue`:
open + `json.load`, the `template_info` extraction, display name, description,
and the dict-key hashability requirement of `results[disp] = ...`. -/
def tplCore (fs : FS) (td fn : String) : Except PyExc (Json × TplEntry) :=
  match fsOpenLoad fs (pathJoin td fn) with
  | .error e => .error e
  | .ok data =>
      match pyGetD (tplInfo data) "name" .null with
      | .error e => .error e
      | .ok nameV =>
          match pyGetD (tplInfo data) "description" (.str "No description available") with
          | .error e => .error e
          | .ok desc =>
              if isContainer (tplDisp fn nameV) then .error .typeError
              else .ok (tplDisp fn nameV, ⟨pathJoin td fn, data, desc⟩)

/-- Scalar JSON equality, used for dict keys (container keys never reach the
dict: they raise `TypeError` first).  Python's cross-type numeric equality of
keys is not modelled; no verified claim depends on key collisions. -/
def scalarKeyEq : Json → Json → Bool
  | .null, .null => true
  | .bool a, .bool b => a == b
  | .num a, .num b => a == b
  | .str a, .str b => a == b
  | _, _ => false

/-- `results[disp] = entry`: replace the value of an existing equal key (the
original key object and its position are kept), else append. -/
def upsert (key : Json) (v : TplEntry) :
    List (Json × TplEntry) → List (Json × TplEntry)
  | [] => [(key, v)]
  | (k, w) :: rest =>
      if scalarKeyEq k key then (k, v) :: rest else (k, w) :: upsert key v rest

/-- The `for fn in sorted(os.listdir(...))` loop of `list_templates`
(templates.py lines 82-95): skip names not ending in `.json`
(case-insensitively), run the per-file body, and on any exception
`continue` silently. -/
def tplFold (fs : FS) (td : String) :
    List String → List (Json × TplEntry) → List (Json × TplEntry)
  | [], acc => acc
  | fn :: rest, acc =>
      if pyEndsWith (pyLower fn) ".json" then
        match pyTry ((tplCore fs td fn).map some) (fun _ => .ok none) with
        | .ok (some (k, v)) => tplFold fs td rest (upsert k v acc)
        | _ => tplFold fs td rest acc
      else tplFold fs td rest acc

/-- Insertion step for `sorted(...)` on strings (code-point order). -/
def insertSorted (x : String) : List String → List String
  | [] => [x]
  | y :: ys => if charListLe x.data y.data then x :: y :: ys else y :: insertSorted x ys

/-- Insertion sort modelling Python's `sorted` on the directory listing. -/
def sortStrings : List String → List String
  | [] => []
  | x :: xs => insertSorted x (sortStrings xs)

/-- `os.listdir(d)` in the modelled filesystem. -/
def listNames (fs : FS) (d : String) : List String :=
  (fs.entries.filter (fun e => e.1 = d)).map (fun e => e.2.1)

/-- `TemplateManager.list_templates` (templates.py lines 67-96). -/
def list_templates (fs : FS) (tm : TemplateManager) : List (Json × TplEntry) :=
  if tm.templates_dir ∈ fs.dirs then
    tplFold fs tm.templates_dir (sortStrings (listNames fs tm.templates_dir)) []
  else []

/-! ## Helper lemmas: layout geometry -/

theorem rowPositions_length (gXft b : ℚ) (row : List (ℚ × ℚ)) :
    ∀ (x0 : ℚ), (rowPositions gXft b x0 row).length = row.length := by
  induction row with
  | nil => intro x0; rfl
  | cons s rest ih =>
      intro x0
      obtain ⟨w, h⟩ := s
      simp only [rowPositions, List.length_cons, ih]

theorem rowPositions_map_z (gXft b : ℚ) (row : List (ℚ × ℚ)) :
    ∀ (x0 : ℚ),
      (rowPositions gXft b x0 row).map XYZ.z = List.replicate row.length 0 := by
  induction row with
  | nil => intro x0; rfl
  | cons s rest ih =>
      intro x0
      obtain ⟨w, h⟩ := s
      simp only [rowPositions, List.map_cons, ih, List.length_cons, List.replicate_succ]

theorem buildRows_length (hA : HAnchor) (mnx mxx availW gX gXft : ℚ)
    (bAt : Nat → ℚ) (rows : List (List (ℚ × ℚ))) :
    ∀ (r : Nat),
      (buildRows hA mnx mxx availW gX gXft bAt r rows).length =
        (rows.map List.length).sum := by
  induction rows with
  | nil => intro r; rfl
  | cons row rest ih =>
      intro r
      simp only [buildRows, List.length_append, rowPositions_length, ih,
        List.map_cons, List.sum_cons]

theorem buildRows_map_z (hA : HAnchor) (mnx mxx availW gX gXft : ℚ)
    (bAt : Nat → ℚ) (rows : List (List (ℚ × ℚ))) :
    ∀ (r : Nat),
      (buildRows hA mnx mxx availW gX gXft bAt r rows).map XYZ.z =
        List.replicate ((rows.map List.length).sum) 0 := by
  induction rows with
  | nil => intro r; rfl
  | cons row rest ih =>
      intro r
      simp only [buildRows, List.map_append, rowPositions_map_z, ih,
        List.map_cons, List.sum_cons, List.replicate_add]

theorem rowPositions_eq_specRow (gXft b : ℚ) (row : List (ℚ × ℚ)) :
    ∀ (x0 : ℚ), rowPositions gXft b x0 row = specRow x0 b gXft row := by
  induction row with
  | nil => intro x0; rfl
  | cons s rest ih =>
      intro x0
      obtain ⟨w, h⟩ := s
      simp only [rowPositions, specRow, List.length_cons, List.range_succ_eq_map,
        List.map_cons, List.map_map, List.cons.injEq]
      constructor
      · simp [cellLeft]
      · rw [ih (x0 + mm_to_ft w + gXft)]
        simp only [specRow]
        apply List.map_congr_left
        intro j _
        simp only [Function.comp_apply, List.getD_cons_succ, List.take_succ_cons,
          List.map_cons, List.sum_cons, cellLeft, XYZ.mk.injEq]
        refine ⟨?_, trivial, trivial⟩
        push_cast
        ring

theorem buildRows_eq_specBuildRows (hA : HAnchor) (mnx mxx availW gX gXft : ℚ)
    (bAt : Nat → ℚ) (rows : List (List (ℚ × ℚ))) :
    ∀ (r : Nat),
      buildRows hA mnx mxx availW gX gXft bAt r rows =
        specBuildRows hA mnx mxx availW gX gXft bAt r rows := by
  induction rows with
  | nil => intro r; rfl
  | cons row rest ih =>
      intro r
      simp only [buildRows, specBuildRows, rowPositions_eq_specRow, ih]

theorem rowsLoop_ge (maxRows : Int) (mh gY aH : ℚ) :
    ∀ (fuel : Nat) (rows : Int), rows ≤ rowsLoop maxRows mh gY aH fuel rows := by
  intro fuel
  induction fuel with
  | zero => intro rows; exact le_refl _
  | succ f ih =>
      intro rows
      simp only [rowsLoop]
      by_cases h1 : rows < maxRows
      · rw [if_pos h1]
        by_cases h2 : (rows : ℚ) * mh + ((rows : ℚ) - 1) * gY ≤ aH
        · rw [if_pos h2]
          exact le_trans (by omega) (ih (rows + 1))
        · rw [if_neg h2]
      · rw [if_neg h1]

theorem computeRows_le (maxRows : Int) (mh gY aH : ℚ) :
    computeRows maxRows mh gY aH ≤ maxRows := by
  unfold computeRows
  by_cases h : rowsLoop maxRows mh gY aH maxRows.toNat 1 > maxRows
  · rw [if_pos h]
  · rw [if_neg h]; omega

theorem computeRows_pos (maxRows : Int) (mh gY aH : ℚ) (h : 1 ≤ maxRows) :
    1 ≤ computeRows maxRows mh gY aH := by
  unfold computeRows
  have := rowsLoop_ge maxRows mh gY aH maxRows.toNat 1
  by_cases hc : rowsLoop maxRows mh gY aH maxRows.toNat 1 > maxRows
  · rw [if_pos hc]; exact h
  · rw [if_neg hc]; exact this

theorem normSizes_length (count : Nat) (sizes_mm : Option (List (ℚ × ℚ)))
    (mW mH : ℚ) : (normSizes count sizes_mm mW mH).length = count := by
  cases sizes_mm with
  | none => simp [normSizes]
  | some l =>
      by_cases hl : l = []
      · simp [normSizes, hl]
      · simp only [normSizes]
        rw [if_neg hl]
        simp only [List.length_append, List.length_replicate, List.length_take]
        omega

/-! ## Helper lemmas: errors.py -/

theorem retryAux_agree {β : Type} (c : PyExc → Bool) (fn fn' : Nat → Except PyExc β) :
    ∀ (n i : Nat) (last : Option PyExc),
      (∀ k, k < n → fn (i + k) = fn' (i + k)) →
      retryAux c fn n i last = retryAux c fn' n i last := by
  intro n
  induction n with
  | zero => intro i last _; rfl
  | succ m ih =>
      intro i last hag
      have h0 : fn i = fn' i := by simpa using hag 0 (by omega)
      cases hfi : fn' i with
      | ok r => simp [retryAux, h0, hfi]
      | error e =>
          by_cases hc : c e = true
          · simp only [retryAux, h0, hfi, hc, if_true]
            exact ih (i + 1) (some e) (fun k hk => by
              have := hag (k + 1) (by omega)
              simpa [Nat.add_assoc, Nat.add_comm 1 k] using this)
          · simp [retryAux, h0, hfi, hc]

theorem retryAux_success {β : Type} (c : PyExc → Bool) (fn : Nat → Except PyExc β) :
    ∀ (n i : Nat) (last : Option PyExc) (k : Nat) (r : β),
      k < n → fn (i + k) = .ok r →
      (∀ j, j < k → ∃ e, fn (i + j) = .error e ∧ c e = true) →
      retryAux c fn n i last = .ok (some r) := by
  intro n
  induction n with
  | zero => intro i last k r hk; omega
  | succ m ih =>
      intro i last k r hk hok hprev
      cases k with
      | zero =>
          simp only [Nat.add_zero] at hok
          simp [retryAux, hok]
      | succ k' =>
          obtain ⟨e, he, hce⟩ := hprev 0 (by omega)
          simp only [Nat.add_zero] at he
          simp only [retryAux, he, hce, if_true]
          exact ih (i + 1) (some e) k' r (by omega)
            (by rw [show i + 1 + k' = i + (k' + 1) by omega]; exact hok)
            (fun j hj => by
              rw [show i + 1 + j = i + (j + 1) by omega]
              exact hprev (j + 1) (by omega))

theorem retryAux_all_fail {β : Type} (c : PyExc → Bool) (fn : Nat → Except PyExc β) :
    ∀ (n i : Nat) (last : Option PyExc),
      0 < n →
      (∀ j, j < n → ∃ e, fn (i + j) = .error e ∧ c e = true) →
      ∃ e, fn (i + (n - 1)) = .error e ∧ retryAux c fn n i last = .error e := by
  intro n
  induction n with
  | zero => intro i last h; omega
  | succ m ih =>
      intro i last _ hall
      obtain ⟨e, he, hce⟩ := hall 0 (by omega)
      simp only [Nat.add_zero] at he
      cases m with
      | zero =>
          refine ⟨e, by simpa using he, ?_⟩
          simp [retryAux, he, hce]
      | succ m' =>
          have step : retryAux c fn (m' + 1 + 1) i last =
              retryAux c fn (m' + 1) (i + 1) (some e) := by
            simp [retryAux, he, hce]
          obtain ⟨e', he', hr'⟩ := ih (i + 1) (some e) (by omega)
            (fun j hj => by
              rw [show i + 1 + j = i + (j + 1) by omega]
              exact hall (j + 1) (by omega))
          refine ⟨e', ?_, by rw [step]; exact hr'⟩
          rw [show i + (m' + 1 + 1 - 1) = i + 1 + (m' + 1 - 1) by omega]
          exact he'

/-! ## Helper lemmas: templates.py -/

theorem upsert_mem (key : Json) (v : TplEntry) :
    ∀ (acc : List (Json × TplEntry)) (kv : Json × TplEntry),
      kv ∈ upsert key v acc → kv.2 = v ∨ kv ∈ acc := by
  intro acc
  induction acc with
  | nil =>
      intro kv hkv
      simp only [upsert, List.mem_singleton] at hkv
      subst hkv
      exact Or.inl rfl
  | cons p rest ih =>
      intro kv hkv
      obtain ⟨k0, w0⟩ := p
      simp only [upsert] at hkv
      by_cases hk : scalarKeyEq k0 key = true
      · rw [if_pos hk] at hkv
        rcases List.mem_cons.mp hkv with h | h
        · subst h; exact Or.inl rfl
        · exact Or.inr (List.mem_cons_of_mem _ h)
      · rw [if_neg hk] at hkv
        rcases List.mem_cons.mp hkv with h | h
        · subst h; exact Or.inr (List.mem_cons_self _ _)
        · rcases ih kv h with h' | h'
          · exact Or.inl h'
          · exact Or.inr (List.mem_cons_of_mem _ h')

theorem tplFold_mem (fs : FS) (td : String) :
    ∀ (names : List String) (acc : List (Json × TplEntry)) (kv : Json × TplEntry),
      kv ∈ tplFold fs td names acc →
      kv ∈ acc ∨ ∃ fn k', tplCore fs td fn = .ok (k', kv.2) := by
  intro names
  induction names with
  | nil => intro acc kv hkv; exact Or.inl hkv
  | cons fn rest ih =>
      intro acc kv hkv
      simp only [tplFold] at hkv
      by_cases hx : pyEndsWith (pyLower fn) ".json" = true
      · rw [if_pos hx] at hkv
        cases hcore : tplCore fs td fn with
        | ok a =>
            obtain ⟨k0, v0⟩ := a
            rw [hcore] at hkv
            simp only [pyTry, Except.map] at hkv
            rcases ih _ kv hkv with h | h
            · rcases upsert_mem k0 v0 acc kv h with h' | h'
              · exact Or.inr ⟨fn, k0, by rw [hcore, h']⟩
              · exact Or.inl h'
            · exact Or.inr h
        | error e =>
            rw [hcore] at hkv
            simp only [pyTry, Except.map] at hkv
            rcases ih _ kv hkv with h | h
            · exact Or.inl h
            · exact Or.inr h
      · rw [if_neg hx] at hkv
        rcases ih _ kv hkv with h | h
        · exact Or.inl h
        · exact Or.inr h

theorem tplCore_ok (fs : FS) (td fn : String) (k : Json) (v : TplEntry)
    (h : tplCore fs td fn = .ok (k, v)) :
    v.filepath = pathJoin td fn ∧
      ∃ j, fsOpenLoad fs (pathJoin td fn) = .ok j ∧ v.data = j := by
  unfold tplCore at h
  split at h
  · exact absurd h (by simp)
  next data hload =>
    split at h
    · exact absurd h (by simp)
    next nameV hname =>
      split at h
      · exact absurd h (by simp)
      next desc hdesc =>
        split at h
        · exact absurd h (by simp)
        · simp only [Except.ok.injEq, Prod.mk.injEq] at h
          obtain ⟨-, hv⟩ := h
          subst hv
          exact ⟨rfl, data, hload, rfl⟩

/-! ## Helper lemmas: layout packing -/

theorem packRow_eq_take (mpr : Int) (gX mW mH : ℚ) (l : List (ℚ × ℚ)) :
    ∀ (vir : Int) (rem : ℚ),
      packRow mpr gX mW mH l vir rem =
        l.take (packRow mpr gX mW mH l vir rem).length := by
  induction l with
  | nil => intro vir rem; rfl
  | cons s rest ih =>
      intro vir rem
      obtain ⟨w, h⟩ := s
      simp only [packRow]
      by_cases hv : vir < mpr
      · rw [if_pos hv]
        by_cases hg : (w + if vir = 0 then 0 else gX) ≤ rem ∧ mW ≤ w ∧ mH ≤ h
        · rw [if_pos hg]
          simp only [List.length_cons, List.take_succ_cons, List.cons.injEq, true_and]
          exact ih (vir + 1) _
        · rw [if_neg hg]; rfl
      · rw [if_neg hv]; rfl

theorem packRow_length_le (mpr : Int) (gX mW mH : ℚ) (l : List (ℚ × ℚ)) :
    ∀ (vir : Int) (rem : ℚ),
      (packRow mpr gX mW mH l vir rem).length ≤ (mpr - vir).toNat := by
  induction l with
  | nil => intro vir rem; simp [packRow]
  | cons s rest ih =>
      intro vir rem
      obtain ⟨w, h⟩ := s
      simp only [packRow]
      by_cases hv : vir < mpr
      · rw [if_pos hv]
        by_cases hg : (w + if vir = 0 then 0 else gX) ≤ rem ∧ mW ≤ w ∧ mH ≤ h
        · rw [if_pos hg]
          simp only [List.length_cons]
          have := ih (vir + 1) (rem - (w + if vir = 0 then 0 else gX))
          omega
        · rw [if_neg hg]; simp
      · rw [if_neg hv]; simp

theorem packRows_row_shape (mpr : Int) (gX mW mH aW : ℚ) :
    ∀ (n : Nat) (l : List (ℚ × ℚ)) (row : List (ℚ × ℚ)),
      row ∈ packRows mpr gX mW mH aW n l →
      row ≠ [] ∧ row.length ≤ mpr.toNat := by
  intro n
  induction n with
  | zero => intro l row hrow; simp [packRows] at hrow
  | succ m ih =>
      intro l row hrow
      simp only [packRows] at hrow
      by_cases h1 : l.isEmpty = true
      · rw [if_pos h1] at hrow; simp at hrow
      · rw [if_neg h1] at hrow
        by_cases h2 : (packRow mpr gX mW mH l 0 aW).isEmpty = true
        · rw [if_pos h2] at hrow; simp at hrow
        · rw [if_neg h2] at hrow
          rcases List.mem_cons.mp hrow with heq | hmem
          · subst heq
            exact ⟨fun hnil => h2 (by simp [hnil]),
              by simpa using packRow_length_le mpr gX mW mH l 0 aW⟩
          · exact ih _ row hmem

theorem packRows_length_le (mpr : Int) (gX mW mH aW : ℚ) :
    ∀ (n : Nat) (l : List (ℚ × ℚ)),
      (packRows mpr gX mW mH aW n l).length ≤ n := by
  intro n
  induction n with
  | zero => intro l; simp [packRows]
  | succ m ih =>
      intro l
      simp only [packRows]
      by_cases h1 : l.isEmpty = true
      · rw [if_pos h1]; simp
      · rw [if_neg h1]
        by_cases h2 : (packRow mpr gX mW mH l 0 aW).isEmpty = true
        · rw [if_pos h2]; simp
        · rw [if_neg h2]
          simpa using ih _

theorem packRows_flatten_eq_take (mpr : Int) (gX mW mH aW : ℚ) :
    ∀ (n : Nat) (l : List (ℚ × ℚ)),
      (packRows mpr gX mW mH aW n l).flatten =
        l.take (packRows mpr gX mW mH aW n l).flatten.length := by
  intro n
  induction n with
  | zero => intro l; simp [packRows]
  | succ m ih =>
      intro l
      simp only [packRows]
      by_cases h1 : l.isEmpty = true
      · rw [if_pos h1]; simp
      · rw [if_neg h1]
        by_cases h2 : (packRow mpr gX mW mH l 0 aW).isEmpty = true
        · rw [if_pos h2]; simp
        · rw [if_neg h2]
          simp only [List.flatten_cons, List.length_append, List.take_add]
          congr 1
          · exact packRow_eq_take mpr gX mW mH l 0 aW
          · exact ih _

/-! ## Claim theorems -/

/-- C6: for every function and argument, `errors.swallow` never propagates an
exception: it returns `(True, r)` when the call returns `r`, and `(False, e)`
when the call raises `e`. -/
theorem swallow_never_raises {α β : Type} (fn : α → Except PyExc β) (a : α) :
    swallow fn a = .ok (match fn a with
      | .ok r => (true, Sum.inl r)
      | .error e => (false, Sum.inr e)) := by
  unfold swallow pyTry
  cases fn a <;> rfl

/-- C10: `units.floor_mm` and `units.ceil_mm` raise `NameError` for every call
with `step_mm > 0` (the name `math` is unbound at module scope of units.py),
and with `step_mm <= 0` both return `ft_to_mm(value_ft)` without raising. -/
theorem floor_ceil_mm_name_error (v s : ℚ) :
    (0 < s →
      floor_mm v s = .error (.nameError "math") ∧
      ceil_mm v s = .error (.nameError "math")) ∧
    (s ≤ 0 →
      floor_mm v s = .ok (ft_to_mm v) ∧ ceil_mm v s = .ok (ft_to_mm v)) := by
  constructor
  · intro hs
    have hns : ¬ s ≤ 0 := not_le.mpr hs
    constructor <;> simp [floor_mm, ceil_mm, hns]
  · intro hs
    constructor <;> simp [floor_mm, ceil_mm, hs]

theorem floor_ceil_mm_name_error_witness :
    floor_mm 1 1 = .error (.nameError "math") ∧ floor_mm 1 0 = .ok (ft_to_mm 1) :=
  ⟨((floor_ceil_mm_name_error 1 1).1 (by norm_num)).1,
   ((floor_ceil_mm_name_error 1 0).2 (le_refl 0)).1⟩

/-- C9: `errors.retry` returns `None` without raising when `times <= 0` (and
without calling `fn`: the result does not depend on `fn` at all there, and in
general depends only on the first `times` attempts); it returns the result of
the first attempt that does not raise; and when all `times` attempts raise
caught exceptions it re-raises the last one. -/
theorem retry_behavior {β : Type} (times : Int) (c : PyExc → Bool)
    (fn fn' : Nat → Except PyExc β) :
    (times ≤ 0 → retry times c fn = .ok none) ∧
    ((∀ k, k < times.toNat → fn k = fn' k) →
      retry times c fn = retry times c fn') ∧
    (∀ i r, i < times.toNat → fn i = .ok r →
      (∀ j, j < i → ∃ e, fn j = .error e ∧ c e = true) →
      retry times c fn = .ok (some r)) ∧
    (0 < times →
      (∀ j, j < times.toNat → ∃ e, fn j = .error e ∧ c e = true) →
      ∃ e, fn (times.toNat - 1) = .error e ∧ retry times c fn = .error e) := by
  refine ⟨?_, ?_, ?_, ?_⟩
  · intro ht
    have h0 : times.toNat = 0 := by omega
    simp [retry, h0, retryAux]
  · intro hag
    exact retryAux_agree c fn fn' times.toNat 0 none
      (fun k hk => by simpa using hag k hk)
  · intro i r hi hok hprev
    exact retryAux_success c fn times.toNat 0 none i r hi (by simpa using hok)
      (fun j hj => by simpa using hprev j hj)
  · intro ht hall
    have h0 : 0 < times.toNat := by omega
    obtain ⟨e, he, hr⟩ := retryAux_all_fail c fn times.toNat 0 none h0
      (fun j hj => by simpa using hall j hj)
    exact ⟨e, by simpa using he, hr⟩

theorem retry_behavior_witness :
    retry 2 (fun _ => true)
      (fun i => if i = 0 then (.error .attrError : Except PyExc Nat) else .ok 5) =
      .ok (some 5) ∧
    retry 0 (fun _ => true) (fun _ => (.ok 7 : Except PyExc Nat)) = .ok none :=
  ⟨(retry_behavior 2 (fun _ => true)
      (fun i => if i = 0 then (.error .attrError : Except PyExc Nat) else .ok 5)
      (fun i => if i = 0 then (.error .attrError : Except PyExc Nat) else .ok 5)).2.2.1
      1 5 (by decide) rfl
      (fun j hj => by
        have hj0 : j = 0 := by omega
        subst hj0
        exact ⟨.attrError, rfl, rfl⟩),
   (retry_behavior 0 (fun _ => true) (fun _ => (.ok 7 : Except PyExc Nat))
      (fun _ => (.ok 7 : Except PyExc Nat))).1 (by decide)⟩

/-- C8: with `count <= 0`, `grid_positions_for_area` returns `[]` regardless
of all other arguments; an `h_anchor`/`v_anchor` argument that is neither an
enum member nor a string equal (after strip+lower) to an enum value is
silently replaced by the defaults `HAnchor.LEFT` / `VAnchor.TOP`. -/
theorem grid_count_nonpositive_and_anchor_defaults
    (count : Int) (p1 p2 : XYZ) (sizes_mm : Option (List (ℚ × ℚ)))
    (gX gY : ℚ) (mr mpr : Int) (hArg : AnchorArg HAnchor)
    (vArg : AnchorArg VAnchor) (mW mH : ℚ) :
    (count ≤ 0 →
      grid_positions_for_area count p1 p2 sizes_mm gX gY mr mpr hArg vArg mW mH = []) ∧
    (∀ s, hAnchorValues.find? (fun p => p.2 = pyLower (pyStrip s)) = none →
      grid_positions_for_area count p1 p2 sizes_mm gX gY mr mpr (.str s) vArg mW mH =
        grid_positions_for_area count p1 p2 sizes_mm gX gY mr mpr (.enum .left) vArg mW mH) ∧
    (grid_positions_for_area count p1 p2 sizes_mm gX gY mr mpr .other vArg mW mH =
      grid_positions_for_area count p1 p2 sizes_mm gX gY mr mpr (.enum .left) vArg mW mH) ∧
    (∀ s, vAnchorValues.find? (fun p => p.2 = pyLower (pyStrip s)) = none →
      grid_positions_for_area count p1 p2 sizes_mm gX gY mr mpr hArg (.str s) mW mH =
        grid_positions_for_area count p1 p2 sizes_mm gX gY mr mpr hArg (.enum .top) mW mH) ∧
    (grid_positions_for_area count p1 p2 sizes_mm gX gY mr mpr hArg .other mW mH =
      grid_positions_for_area count p1 p2 sizes_mm gX gY mr mpr hArg (.enum .top) mW mH) := by
  refine ⟨?_, ?_, ?_, ?_, ?_⟩
  · intro hc
    simp [grid_positions_for_area, hc]
  · intro s hs
    unfold grid_positions_for_area
    rw [show coerce_anchor hAnchorValues (.str s) HAnchor.left =
        coerce_anchor hAnchorValues (.enum .left) HAnchor.left by
      simp [coerce_anchor, hs]]
  · rfl
  · intro s hs
    unfold grid_positions_for_area
    rw [show coerce_anchor vAnchorValues (.str s) VAnchor.top =
        coerce_anchor vAnchorValues (.enum .top) VAnchor.top by
      simp [coerce_anchor, hs]]
  · rfl

theorem grid_count_nonpositive_and_anchor_defaults_witness :
    grid_positions_for_area (-1) ⟨0, 0, 0⟩ ⟨1, 1, 0⟩ none 10 10 3 6
      (.enum .left) (.enum .top) 20 20 = [] ∧
    grid_positions_for_area 1 ⟨0, 0, 0⟩ ⟨1, 1, 0⟩ none 10 10 3 6
      (.str "bogus") (.enum .top) 20 20 =
      grid_positions_for_area 1 ⟨0, 0, 0⟩ ⟨1, 1, 0⟩ none 10 10 3 6
        (.enum .left) (.enum .top) 20 20 :=
  ⟨(grid_count_nonpositive_and_anchor_defaults (-1) ⟨0, 0, 0⟩ ⟨1, 1, 0⟩ none 10 10 3 6
      (.enum .left) (.enum .top) 20 20).1 (by decide),
   (grid_count_nonpositive_and_anchor_defaults 1 ⟨0, 0, 0⟩ ⟨1, 1, 0⟩ none 10 10 3 6
      (.enum .left) (.enum .top) 20 20).2.1 "bogus" (by decide)⟩

/-- C5: the `TemplateManager` file operations never raise and signal failure
only through their return value: `load_json` gives the parsed value or `None`
on any failure; `save_project_config` gives the written path on success and
`None` on failure; `list_templates` gives `{}` when the templates directory
does not exist, and every entry it returns comes from a file that was opened
and parsed successfully (unreadable or malformed files are skipped silently). -/
theorem template_ops_signal_by_return :
    (∀ (fs : FS) (p : String),
      (∃ j, fsOpenLoad fs p = .ok j ∧ load_json fs p = some j) ∨
      (∃ e, fsOpenLoad fs p = .error e ∧ load_json fs p = none)) ∧
    (∀ (fs : FS) (tm : TemplateManager) (payload : Json) (hint ts : String),
      (tm.projects_dir ∈ fs.dirs →
        (save_project_config fs tm payload hint ts).1 =
          some (pathJoin tm.projects_dir (sanitizeHint hint ++ "__" ++ ts ++ ".json"))) ∧
      (tm.projects_dir ∉ fs.dirs →
        save_project_config fs tm payload hint ts = (none, fs))) ∧
    (∀ (fs : FS) (tm : TemplateManager),
      (tm.templates_dir ∉ fs.dirs → list_templates fs tm = []) ∧
      (∀ kv ∈ list_templates fs tm, ∃ j, fsOpenLoad fs kv.2.filepath = .ok j)) := by
  refine ⟨?_, ?_, ?_⟩
  · intro fs p
    cases h : fsOpenLoad fs p with
    | ok j => exact Or.inl ⟨j, rfl, by simp [load_json, pyCatchAll, Except.map, h]⟩
    | error e => exact Or.inr ⟨e, rfl, by simp [load_json, pyCatchAll, Except.map, h]⟩
  · intro fs tm payload hint ts
    constructor
    · intro hd
      simp [save_project_config, fsWrite, pyCatchAll, Except.map, hd]
    · intro hd
      simp [save_project_config, fsWrite, pyCatchAll, Except.map, hd]
  · intro fs tm
    constructor
    · intro hd
      simp [list_templates, hd]
    · intro kv hkv
      by_cases hd : tm.templates_dir ∈ fs.dirs
      · rw [list_templates, if_pos hd] at hkv
        rcases tplFold_mem fs tm.templates_dir _ [] kv hkv with h | ⟨fn, k', hcore⟩
        · simp at h
        · obtain ⟨hfp, j, hj, -⟩ := tplCore_ok fs tm.templates_dir fn k' kv.2 hcore
          exact ⟨j, by rw [hfp]; exact hj⟩
      · rw [list_templates, if_neg hd] at hkv
        simp at hkv

theorem template_ops_signal_by_return_witness :
    list_templates ⟨[], []⟩ ⟨"t", "p"⟩ = [] ∧
    save_project_config ⟨[], []⟩ ⟨"t", "p"⟩ Json.null "a" "b" = (none, ⟨[], []⟩) :=
  ⟨(template_ops_signal_by_return.2.2 ⟨[], []⟩ ⟨"t", "p"⟩).1 (by decide),
   (template_ops_signal_by_return.2.1 ⟨[], []⟩ ⟨"t", "p"⟩ Json.null "a" "b").2 (by decide)⟩

/-- C7: when `save_project_config` returns a path, that path is
`projects_dir/<sanitized name_hint>__<timestamp>.json`, and `load_json`
applied to it (on the filesystem resulting from the save) yields a value equal
to the payload — the save-then-load round trip.  The `json` layer is modelled
semantically (a written file holds the dumped JSON value). -/
theorem save_then_load_round_trip (fs : FS) (tm : TemplateManager)
    (payload : Json) (hint ts : String) (p : String) (fs' : FS)
    (h : save_project_config fs tm payload hint ts = (some p, fs')) :
    p = pathJoin tm.projects_dir (sanitizeHint hint ++ "__" ++ ts ++ ".json") ∧
    load_json fs' p = some payload := by
  unfold save_project_config fsWrite at h
  by_cases hd : tm.projects_dir ∈ fs.dirs
  · rw [if_pos hd] at h
    simp only [Except.map, pyCatchAll, Prod.mk.injEq, Option.some.injEq] at h
    obtain ⟨hp, hfs⟩ := h
    refine ⟨hp.symm, ?_⟩
    rw [← hp, ← hfs]
    simp [load_json, pyCatchAll, fsOpenLoad, Except.map, List.find?]
  · rw [if_neg hd] at h
    simp only [Except.map, pyCatchAll, Prod.mk.injEq] at h
    exact absurd h.1 (by simp)

theorem save_then_load_round_trip_witness :
    load_json
      (save_project_config ⟨["proj"], []⟩ ⟨"tpl", "proj"⟩ Json.null "project" "20260101").2
      "proj/project__20260101.json" = some Json.null :=
  (save_then_load_round_trip ⟨["proj"], []⟩ ⟨"tpl", "proj"⟩ Json.null "project" "20260101"
    "proj/project__20260101.json"
    (save_project_config ⟨["proj"], []⟩ ⟨"tpl", "proj"⟩ Json.null "project" "20260101").2
    (by rfl)).2

/-- C1 counterexample: with `count = 19` and a 10 m × 10 m area there is ample
room for the remaining item — nineteen default 50 mm cells fit in a single row
(19·(50+10) mm ≤ 10000 mm) and three 50 mm rows fit in the height — yet only
18 positions are returned, because 19 exceeds the `rows * max_per_row = 3 * 6`
capacity.  So a shortfall does not imply the area is too small. -/
theorem grid_shortfall_despite_ample_area :
    (grid_positions_for_area 19 ⟨0, 0, 0⟩ ⟨mm_to_ft 10000, mm_to_ft 10000, 0⟩ none
      10 10 3 6 (.enum .left) (.enum .top) 20 20).length = 18 ∧
    (19 : ℚ) * (50 + 10) ≤ 10000 ∧ (3 : ℚ) * 50 + 2 * 10 ≤ 10000 :=
  ⟨by decide, by norm_num, by norm_num⟩

/-- C1 amended: `grid_positions_for_area` never returns more than
`max_rows * max_per_row` positions (for nonnegative caps), so fewer positions
than requested can result from the caps alone — with ample area remaining —
and not only from the area being too small. -/
theorem grid_length_le_row_caps (count : Int) (p1 p2 : XYZ)
    (sizes_mm : Option (List (ℚ × ℚ))) (gX gY : ℚ) (mr mpr : Int)
    (hArg : AnchorArg HAnchor) (vArg : AnchorArg VAnchor) (mW mH : ℚ) :
    (grid_positions_for_area count p1 p2 sizes_mm gX gY mr mpr hArg vArg mW mH).length
      ≤ mr.toNat * mpr.toNat := by
  unfold grid_positions_for_area
  by_cases hc : count ≤ 0
  · rw [if_pos hc]; simp
  · rw [if_neg hc]
    simp only [gridCore, gridPacked]
    rw [buildRows_length]
    set sizes := normSizes count.toNat sizes_mm mW mH with hsizes
    set n := (computeRows mr (maxHmm sizes mH) gY (availHmm p1 p2)).toNat with hn
    have hbound : ∀ x ∈ (packRows mpr gX mW mH (availWmm p1 p2) n sizes).map List.length,
        x ≤ mpr.toNat := by
      intro x hx
      obtain ⟨row, hrow, hxlen⟩ := List.mem_map.mp hx
      rw [← hxlen]
      exact (packRows_row_shape mpr gX mW mH (availWmm p1 p2) n sizes row hrow).2
    have h1 := List.sum_le_card_nsmul _ _ hbound
    simp only [List.length_map, smul_eq_mul] at h1
    have h2 : (packRows mpr gX mW mH (availWmm p1 p2) n sizes).length ≤ n :=
      packRows_length_le mpr gX mW mH (availWmm p1 p2) n sizes
    have h3 : n ≤ mr.toNat := by
      rw [hn]
      exact Int.toNat_le_toNat (computeRows_le mr (maxHmm sizes mH) gY (availHmm p1 p2))
    calc ((packRows mpr gX mW mH (availWmm p1 p2) n sizes).map List.length).sum
        ≤ (packRows mpr gX mW mH (availWmm p1 p2) n sizes).length * mpr.toNat := h1
      _ ≤ n * mpr.toNat := Nat.mul_le_mul_right _ h2
      _ ≤ mr.toNat * mpr.toNat := Nat.mul_le_mul_right _ h3

theorem grid_length_le_row_caps_witness :
    (grid_positions_for_area 19 ⟨0, 0, 0⟩ ⟨mm_to_ft 10000, mm_to_ft 10000, 0⟩ none
      10 10 3 6 (.enum .left) (.enum .top) 20 20).length ≤ 18 :=
  grid_length_le_row_caps 19 ⟨0, 0, 0⟩ ⟨mm_to_ft 10000, mm_to_ft 10000, 0⟩ none
    10 10 3 6 (.enum .left) (.enum .top) 20 20

/-- C2 counterexample: seven 50 mm items in a 10 m × 10 m area with the
default `max_per_row = 6`: the seventh item starts a new row (its Y differs
from the sixth item's) even though its width plus gap, 60 mm, is far below the
10000 − (6·50 + 5·10) = 9650 mm remaining in the first row — the wrap was
forced by `max_per_row`, not by insufficient width. -/
theorem grid_wraps_at_max_per_row_despite_width :
    ((grid_positions_for_area 7 ⟨0, 0, 0⟩ ⟨mm_to_ft 10000, mm_to_ft 10000, 0⟩ none
        10 10 3 6 (.enum .left) (.enum .top) 20 20).getD 6 ⟨0, 0, 0⟩).y ≠
      ((grid_positions_for_area 7 ⟨0, 0, 0⟩ ⟨mm_to_ft 10000, mm_to_ft 10000, 0⟩ none
        10 10 3 6 (.enum .left) (.enum .top) 20 20).getD 5 ⟨0, 0, 0⟩).y ∧
    (50 : ℚ) + 10 ≤ 10000 - (6 * 50 + 5 * 10) :=
  ⟨by decide, by norm_num⟩

/-- C2 amended: items are packed in their given order with none skipped — the
concatenation of the packed rows is always an initial segment of the
(normalised) size list — and a new row starts when the next item does not pass
the row guard: its width (plus gap) exceeds the remaining width, or the row
already holds `max_per_row` items, or the item is below the minimum cell size
(each packed row is nonempty and holds at most `max_per_row` items; a row that
cannot accept its first item stops the packing entirely). -/
theorem grid_packs_in_order_no_skip (count : Int) (p1 p2 : XYZ)
    (sizes_mm : Option (List (ℚ × ℚ))) (gX gY : ℚ) (mr mpr : Int) (mW mH : ℚ) :
    (∃ k, (gridPacked count p1 p2 sizes_mm gX gY mr mpr mW mH).flatten =
      (normSizes count.toNat sizes_mm mW mH).take k) ∧
    (∀ row ∈ gridPacked count p1 p2 sizes_mm gX gY mr mpr mW mH,
      row ≠ [] ∧ row.length ≤ mpr.toNat) := by
  constructor
  · exact ⟨_, packRows_flatten_eq_take mpr gX mW mH (availWmm p1 p2) _ _⟩
  · intro row hrow
    exact packRows_row_shape mpr gX mW mH (availWmm p1 p2) _ _ row hrow

theorem grid_packs_in_order_no_skip_witness :
    List.replicate 6 ((50 : ℚ), (50 : ℚ)) ≠ [] ∧
    (List.replicate 6 ((50 : ℚ), (50 : ℚ))).length ≤ (6 : Int).toNat :=
  (grid_packs_in_order_no_skip 7 ⟨0, 0, 0⟩ ⟨mm_to_ft 10000, mm_to_ft 10000, 0⟩ none
      10 10 3 6 20 20).2 (List.replicate 6 (50, 50)) (by decide)

/-- C4: the returned list coincides with its closed-form description in which
element `j` of each row is the center of its assigned cell (X = cell left edge
plus half the item width, Y = row bottom plus half the item height, Z = 0),
and the list never exceeds `count` elements. -/
theorem grid_returns_cell_centers (count : Int) (p1 p2 : XYZ)
    (sizes_mm : Option (List (ℚ × ℚ))) (gX gY : ℚ) (mr mpr : Int)
    (hArg : AnchorArg HAnchor) (vArg : AnchorArg VAnchor) (mW mH : ℚ) :
    grid_positions_for_area count p1 p2 sizes_mm gX gY mr mpr hArg vArg mW mH =
      specGrid count p1 p2 sizes_mm gX gY mr mpr hArg vArg mW mH ∧
    (grid_positions_for_area count p1 p2 sizes_mm gX gY mr mpr hArg vArg mW mH).length
      ≤ count.toNat ∧
    (grid_positions_for_area count p1 p2 sizes_mm gX gY mr mpr hArg vArg mW mH).map XYZ.z =
      List.replicate
        (grid_positions_for_area count p1 p2 sizes_mm gX gY mr mpr hArg vArg mW mH).length
        0 := by
  refine ⟨?_, ?_, ?_⟩
  · unfold grid_positions_for_area specGrid
    by_cases hc : count ≤ 0
    · rw [if_pos hc, if_pos hc]
    · rw [if_neg hc, if_neg hc]
      simp only [gridCore]
      exact buildRows_eq_specBuildRows _ _ _ _ _ _ _ _ 0
  · unfold grid_positions_for_area
    by_cases hc : count ≤ 0
    · rw [if_pos hc]; simp
    · rw [if_neg hc]
      simp only [gridCore, gridPacked]
      rw [buildRows_length, ← List.length_flatten]
      set sizes := normSizes count.toNat sizes_mm mW mH with hsizes
      set n := (computeRows mr (maxHmm sizes mH) gY (availHmm p1 p2)).toNat with hn
      have h := packRows_flatten_eq_take mpr gX mW mH (availWmm p1 p2) n sizes
      calc ((packRows mpr gX mW mH (availWmm p1 p2) n sizes).flatten).length
          ≤ sizes.length := by
            conv_lhs => rw [h]
            rw [List.length_take]
            exact min_le_right _ _
        _ = count.toNat := by rw [hsizes]; exact normSizes_length _ _ _ _
  · unfold grid_positions_for_area
    by_cases hc : count ≤ 0
    · rw [if_pos hc]; simp
    · rw [if_neg hc]
      simp only [gridCore]
      rw [buildRows_map_z, buildRows_length]

theorem normSizes_zero (sizes_mm : Option (List (ℚ × ℚ))) (mW mH : ℚ) :
    normSizes 0 sizes_mm mW mH = [] := by
  cases sizes_mm with
  | none => simp [normSizes]
  | some l =>
      by_cases hl : l = []
      · simp [normSizes, hl]
      · simp [normSizes, hl]

theorem packRows_nil (mpr : Int) (gX mW mH aW : ℚ) :
    ∀ (n : Nat), packRows mpr gX mW mH aW n [] = [] := by
  intro n
  cases n with
  | zero => rfl
  | succ m => simp [packRows]

theorem gridPacked_nil_of_nonpos (count : Int) (p1 p2 : XYZ)
    (sizes_mm : Option (List (ℚ × ℚ))) (gX gY : ℚ) (mr mpr : Int) (mW mH : ℚ)
    (hc : count ≤ 0) :
    gridPacked count p1 p2 sizes_mm gX gY mr mpr mW mH = [] := by
  have h0 : count.toNat = 0 := by omega
  unfold gridPacked
  rw [h0, normSizes_zero]
  exact packRows_nil mpr gX mW mH (availWmm p1 p2) _

theorem buildRows_getD_rowStart (hA : HAnchor) (mnx mxx availW gX gXft : ℚ)
    (bAt : Nat → ℚ) :
    ∀ (rows : List (List (ℚ × ℚ))) (r0 r : Nat) (d : XYZ),
      r < rows.length → (∀ row ∈ rows, row ≠ []) →
      (buildRows hA mnx mxx availW gX gXft bAt r0 rows).getD (rowStartIdx rows r) d =
        ⟨startX hA mnx mxx availW (totalRowWft gX (rows.getD r [])) +
            mm_to_ft ((rows.getD r []).headD (0, 0)).1 / 2,
          bAt (r0 + r) + mm_to_ft ((rows.getD r []).headD (0, 0)).2 / 2, 0⟩ := by
  intro rows
  induction rows with
  | nil => intro r0 r d hr _; simp at hr
  | cons row rest ih =>
      intro r0 r d hr hne
      cases r with
      | zero =>
          have hrow : row ≠ [] := hne row (List.mem_cons_self _ _)
          obtain ⟨s0, t0, h0⟩ := List.exists_cons_of_ne_nil hrow
          subst h0
          obtain ⟨w0, h0v⟩ := s0
          simp only [rowStartIdx, List.take_zero, List.map_nil, List.sum_nil,
            buildRows, rowPositions, List.cons_append, List.getD_cons_zero,
            List.headD_cons, Nat.add_zero]
      | succ r' =>
          have hlen : (rowPositions gXft (bAt r0)
              (startX hA mnx mxx availW (totalRowWft gX row)) row).length = row.length :=
            rowPositions_length _ _ _ _
          simp only [buildRows, rowStartIdx, List.take_succ_cons, List.map_cons,
            List.sum_cons, List.getD_cons_succ]
          rw [List.getD_append_right _ _ _ _ (by rw [hlen]; omega), hlen,
            Nat.add_sub_cancel_left]
          have hih := ih (r0 + 1) r' d (by simpa using hr)
            (fun row' hrow' => hne row' (List.mem_cons_of_mem _ hrow'))
          rw [show r0 + 1 + r' = r0 + (r' + 1) from by omega] at hih
          exact hih

/-- For every row index `r` below the number of packed rows, the position at
that row's start index in the returned list is the center of the row's first
cell: the row's `start_x` (per the coerced horizontal anchor and the row's own
total width) plus half its first item's width, and `row_bottom_at(r)` (per the
coerced vertical anchor) plus half its first item's height. -/
theorem grid_row_first_cell_eq (count : Int) (p1 p2 : XYZ)
    (sizes_mm : Option (List (ℚ × ℚ))) (gX gY : ℚ) (mr mpr : Int)
    (hArg : AnchorArg HAnchor) (vArg : AnchorArg VAnchor) (mW mH : ℚ)
    (r : Nat) (hr : r < (gridPacked count p1 p2 sizes_mm gX gY mr mpr mW mH).length) :
    (grid_positions_for_area count p1 p2 sizes_mm gX gY mr mpr hArg vArg mW mH).getD
        (rowStartIdx (gridPacked count p1 p2 sizes_mm gX gY mr mpr mW mH) r) ⟨0, 0, 0⟩ =
      ⟨startX (coerce_anchor hAnchorValues hArg HAnchor.left) (minX p1 p2) (maxX p1 p2)
          (availWft p1 p2)
          (totalRowWft gX
            ((gridPacked count p1 p2 sizes_mm gX gY mr mpr mW mH).getD r [])) +
        mm_to_ft
          (((gridPacked count p1 p2 sizes_mm gX gY mr mpr mW mH).getD r []).headD
            (0, 0)).1 / 2,
       rowBottomAt (coerce_anchor vAnchorValues vArg VAnchor.top) (minY p1 p2) (maxY p1 p2)
          (availHft p1 p2)
          (mm_to_ft (maxHmm (normSizes count.toNat sizes_mm mW mH) mH)) (mm_to_ft gY)
          ((computeRows mr (maxHmm (normSizes count.toNat sizes_mm mW mH) mH) gY
              (availHmm p1 p2) : ℚ) *
              mm_to_ft (maxHmm (normSizes count.toNat sizes_mm mW mH) mH) +
            ((computeRows mr (maxHmm (normSizes count.toNat sizes_mm mW mH) mH) gY
              (availHmm p1 p2) : ℚ) - 1) * mm_to_ft gY) r +
        mm_to_ft
          (((gridPacked count p1 p2 sizes_mm gX gY mr mpr mW mH).getD r []).headD
            (0, 0)).2 / 2,
       0⟩ := by
  by_cases hc : count ≤ 0
  · rw [gridPacked_nil_of_nonpos count p1 p2 sizes_mm gX gY mr mpr mW mH hc] at hr
    simp at hr
  · unfold grid_positions_for_area
    rw [if_neg hc]
    simp only [gridCore]
    have hne : ∀ row ∈ gridPacked count p1 p2 sizes_mm gX gY mr mpr mW mH, row ≠ [] :=
      fun row hrow =>
        (packRows_row_shape mpr gX mW mH (availWmm p1 p2) _ _ row hrow).1
    have h := buildRows_getD_rowStart (coerce_anchor hAnchorValues hArg HAnchor.left)
      (minX p1 p2) (maxX p1 p2) (availWft p1 p2) gX (mm_to_ft gX)
      (fun rr => rowBottomAt (coerce_anchor vAnchorValues vArg VAnchor.top)
        (minY p1 p2) (maxY p1 p2) (availHft p1 p2)
        (mm_to_ft (maxHmm (normSizes count.toNat sizes_mm mW mH) mH)) (mm_to_ft gY)
        ((computeRows mr (maxHmm (normSizes count.toNat sizes_mm mW mH) mH) gY
            (availHmm p1 p2) : ℚ) *
            mm_to_ft (maxHmm (normSizes count.toNat sizes_mm mW mH) mH) +
          ((computeRows mr (maxHmm (normSizes count.toNat sizes_mm mW mH) mH) gY
            (availHmm p1 p2) : ℚ) - 1) * mm_to_ft gY) rr)
      (gridPacked count p1 p2 sizes_mm gX gY mr mpr mW mH) 0 r ⟨0, 0, 0⟩ hr hne
    simpa only [Nat.zero_add] using h

theorem availWft_eq (p1 p2 : XYZ) : availWft p1 p2 = maxX p1 p2 - minX p1 p2 :=
  max_eq_right (sub_nonneg.mpr (min_le_max))

theorem availHft_eq (p1 p2 : XYZ) : availHft p1 p2 = maxY p1 p2 - minY p1 p2 :=
  max_eq_right (sub_nonneg.mpr (min_le_max))

/-- When `count >= 1`, `max_rows >= 1` and the first row packs at least one
item, the first returned position is the center of the first cell of row 0:
`start_x` of the first row plus half the first item's width, and
`row_bottom_at(0)` plus half the first item's height. -/
theorem grid_head_eq (count : Int) (p1 p2 : XYZ)
    (sizes_mm : Option (List (ℚ × ℚ))) (gX gY : ℚ) (mr mpr : Int)
    (hArg : AnchorArg HAnchor) (vArg : AnchorArg VAnchor) (mW mH : ℚ)
    (hc : 1 ≤ count) (hmr : 1 ≤ mr)
    (hrow : packRow mpr gX mW mH (normSizes count.toNat sizes_mm mW mH) 0
      (availWmm p1 p2) ≠ []) :
    (grid_positions_for_area count p1 p2 sizes_mm gX gY mr mpr hArg vArg mW mH).headD
        ⟨0, 0, 0⟩ =
      ⟨startX (coerce_anchor hAnchorValues hArg HAnchor.left) (minX p1 p2) (maxX p1 p2)
          (availWft p1 p2)
          (totalRowWft gX (packRow mpr gX mW mH (normSizes count.toNat sizes_mm mW mH) 0
            (availWmm p1 p2))) +
        mm_to_ft ((packRow mpr gX mW mH (normSizes count.toNat sizes_mm mW mH) 0
          (availWmm p1 p2)).headD (0, 0)).1 / 2,
       rowBottomAt (coerce_anchor vAnchorValues vArg VAnchor.top) (minY p1 p2) (maxY p1 p2)
          (availHft p1 p2)
          (mm_to_ft (maxHmm (normSizes count.toNat sizes_mm mW mH) mH)) (mm_to_ft gY)
          ((computeRows mr (maxHmm (normSizes count.toNat sizes_mm mW mH) mH) gY
              (availHmm p1 p2) : ℚ) *
              mm_to_ft (maxHmm (normSizes count.toNat sizes_mm mW mH) mH) +
            ((computeRows mr (maxHmm (normSizes count.toNat sizes_mm mW mH) mH) gY
              (availHmm p1 p2) : ℚ) - 1) * mm_to_ft gY) 0 +
        mm_to_ft ((packRow mpr gX mW mH (normSizes count.toNat sizes_mm mW mH) 0
          (availWmm p1 p2)).headD (0, 0)).2 / 2,
       0⟩ := by
  have hc0 : ¬ count ≤ 0 := by omega
  unfold grid_positions_for_area
  rw [if_neg hc0]
  simp only [gridCore, gridPacked]
  obtain ⟨m, hm⟩ : ∃ m, (computeRows mr (maxHmm (normSizes count.toNat sizes_mm mW mH) mH)
      gY (availHmm p1 p2)).toNat = m + 1 := by
    have h1 := computeRows_pos mr (maxHmm (normSizes count.toNat sizes_mm mW mH) mH) gY
      (availHmm p1 p2) hmr
    exact ⟨(computeRows mr (maxHmm (normSizes count.toNat sizes_mm mW mH) mH) gY
      (availHmm p1 p2)).toNat - 1, by omega⟩
  rw [hm]
  have hsne : ¬ (normSizes count.toNat sizes_mm mW mH).isEmpty = true := by
    rw [List.isEmpty_iff]
    intro hemp
    have hl := normSizes_length count.toNat sizes_mm mW mH
    rw [hemp] at hl
    simp at hl
    omega
  have hrne : ¬ (packRow mpr gX mW mH (normSizes count.toNat sizes_mm mW mH) 0
      (availWmm p1 p2)).isEmpty = true := by
    rw [List.isEmpty_iff]
    exact hrow
  simp only [packRows]
  rw [if_neg hsne, if_neg hrne]
  obtain ⟨s0, t0, hrow0⟩ := List.exists_cons_of_ne_nil hrow
  rw [hrow0]
  obtain ⟨w0, h0v⟩ := s0
  simp only [buildRows, rowPositions, List.cons_append, List.headD_cons]

/-- C3 counterexample: a single 50 mm item in a 1 m × 1 m area with
`v_anchor = CENTER`: three 50 mm rows fit vertically, so the code centers a
*three*-row block; the one placed row (height = row height = the item's 50 mm)
then sits 415 mm from the top but 535 mm from the bottom — the block of placed
rows is not centered vertically. -/
theorem grid_vcenter_off_for_placed_rows :
    (grid_positions_for_area 1 ⟨0, 0, 0⟩ ⟨mm_to_ft 1000, mm_to_ft 1000, 0⟩ none
      10 10 3 6 (.enum .left) (.enum .center) 20 20).length = 1 ∧
    mm_to_ft 1000 -
        (((grid_positions_for_area 1 ⟨0, 0, 0⟩ ⟨mm_to_ft 1000, mm_to_ft 1000, 0⟩ none
          10 10 3 6 (.enum .left) (.enum .center) 20 20).getD 0 ⟨0, 0, 0⟩).y +
          mm_to_ft 25) ≠
      ((grid_positions_for_area 1 ⟨0, 0, 0⟩ ⟨mm_to_ft 1000, mm_to_ft 1000, 0⟩ none
          10 10 3 6 (.enum .left) (.enum .center) 20 20).getD 0 ⟨0, 0, 0⟩).y -
        mm_to_ft 25 - 0 :=
  ⟨by decide, by decide⟩

/-- C3 amended: with `h_anchor` LEFT *each packed row* starts at the area's
left edge (the row's first cell's left edge equals `min_x`), with RIGHT each
packed row's right edge (its left edge plus its total packed width) equals
`max_x`, with CENTER each packed row is centered horizontally (equal left and
right margins); with `v_anchor` TOP the first row's top edge equals `max_y`,
with BOTTOM the first row's bottom edge equals `min_y`; with CENTER the code
centers the block of `rows` *computed* rows (the number of rows that fit
vertically, capped at `max_rows`), which coincides with centering the placed
rows only when all computed rows are actually used.  Row `r`'s first cell is
read off the returned list at the index where row `r`'s positions start. -/
theorem grid_anchor_first_cell (count : Int) (p1 p2 : XYZ)
    (sizes_mm : Option (List (ℚ × ℚ))) (gX gY : ℚ) (mr mpr : Int)
    (hArg : AnchorArg HAnchor) (vArg : AnchorArg VAnchor) (mW mH : ℚ)
    (hc : 1 ≤ count) (hmr : 1 ≤ mr)
    (hrow : packRow mpr gX mW mH (normSizes count.toNat sizes_mm mW mH) 0
      (availWmm p1 p2) ≠ []) :
    (hArg = .enum .left →
      ∀ r : Nat, r < (gridPacked count p1 p2 sizes_mm gX gY mr mpr mW mH).length →
        ((grid_positions_for_area count p1 p2 sizes_mm gX gY mr mpr hArg vArg mW mH).getD
            (rowStartIdx (gridPacked count p1 p2 sizes_mm gX gY mr mpr mW mH) r)
            ⟨0, 0, 0⟩).x -
          mm_to_ft
            (((gridPacked count p1 p2 sizes_mm gX gY mr mpr mW mH).getD r []).headD
              (0, 0)).1 / 2 = minX p1 p2) ∧
    (hArg = .enum .right →
      ∀ r : Nat, r < (gridPacked count p1 p2 sizes_mm gX gY mr mpr mW mH).length →
        ((grid_positions_for_area count p1 p2 sizes_mm gX gY mr mpr hArg vArg mW mH).getD
            (rowStartIdx (gridPacked count p1 p2 sizes_mm gX gY mr mpr mW mH) r)
            ⟨0, 0, 0⟩).x -
          mm_to_ft
            (((gridPacked count p1 p2 sizes_mm gX gY mr mpr mW mH).getD r []).headD
              (0, 0)).1 / 2 +
          totalRowWft gX ((gridPacked count p1 p2 sizes_mm gX gY mr mpr mW mH).getD r []) =
          maxX p1 p2) ∧
    (hArg = .enum .center →
      ∀ r : Nat, r < (gridPacked count p1 p2 sizes_mm gX gY mr mpr mW mH).length →
        ((grid_positions_for_area count p1 p2 sizes_mm gX gY mr mpr hArg vArg mW mH).getD
            (rowStartIdx (gridPacked count p1 p2 sizes_mm gX gY mr mpr mW mH) r)
            ⟨0, 0, 0⟩).x -
          mm_to_ft
            (((gridPacked count p1 p2 sizes_mm gX gY mr mpr mW mH).getD r []).headD
              (0, 0)).1 / 2 - minX p1 p2 =
        maxX p1 p2 -
          (((grid_positions_for_area count p1 p2 sizes_mm gX gY mr mpr hArg vArg mW mH).getD
              (rowStartIdx (gridPacked count p1 p2 sizes_mm gX gY mr mpr mW mH) r)
              ⟨0, 0, 0⟩).x -
            mm_to_ft
              (((gridPacked count p1 p2 sizes_mm gX gY mr mpr mW mH).getD r []).headD
                (0, 0)).1 / 2 +
            totalRowWft gX
              ((gridPacked count p1 p2 sizes_mm gX gY mr mpr mW mH).getD r []))) ∧
    (vArg = .enum .top →
      ((grid_positions_for_area count p1 p2 sizes_mm gX gY mr mpr hArg vArg mW mH).headD
          ⟨0, 0, 0⟩).y -
        mm_to_ft ((packRow mpr gX mW mH (normSizes count.toNat sizes_mm mW mH) 0
          (availWmm p1 p2)).headD (0, 0)).2 / 2 +
        mm_to_ft (maxHmm (normSizes count.toNat sizes_mm mW mH) mH) = maxY p1 p2) ∧
    (vArg = .enum .bottom →
      ((grid_positions_for_area count p1 p2 sizes_mm gX gY mr mpr hArg vArg mW mH).headD
          ⟨0, 0, 0⟩).y -
        mm_to_ft ((packRow mpr gX mW mH (normSizes count.toNat sizes_mm mW mH) 0
          (availWmm p1 p2)).headD (0, 0)).2 / 2 = minY p1 p2) ∧
    (vArg = .enum .center →
      maxY p1 p2 -
        (((grid_positions_for_area count p1 p2 sizes_mm gX gY mr mpr hArg vArg mW mH).headD
            ⟨0, 0, 0⟩).y -
          mm_to_ft ((packRow mpr gX mW mH (normSizes count.toNat sizes_mm mW mH) 0
            (availWmm p1 p2)).headD (0, 0)).2 / 2 +
          mm_to_ft (maxHmm (normSizes count.toNat sizes_mm mW mH) mH)) =
      (availHft p1 p2 -
        ((computeRows mr (maxHmm (normSizes count.toNat sizes_mm mW mH) mH) gY
            (availHmm p1 p2) : ℚ) *
            mm_to_ft (maxHmm (normSizes count.toNat sizes_mm mW mH) mH) +
          ((computeRows mr (maxHmm (normSizes count.toNat sizes_mm mW mH) mH) gY
            (availHmm p1 p2) : ℚ) - 1) * mm_to_ft gY)) / 2) := by
  have H := grid_head_eq count p1 p2 sizes_mm gX gY mr mpr hArg vArg mW mH hc hmr hrow
  refine ⟨?_, ?_, ?_, ?_, ?_, ?_⟩
  · intro hh r hr; subst hh
    rw [grid_row_first_cell_eq count p1 p2 sizes_mm gX gY mr mpr (.enum .left) vArg
      mW mH r hr]
    simp only [coerce_anchor, startX]
    ring
  · intro hh r hr; subst hh
    rw [grid_row_first_cell_eq count p1 p2 sizes_mm gX gY mr mpr (.enum .right) vArg
      mW mH r hr]
    simp only [coerce_anchor, startX]
    ring
  · intro hh r hr; subst hh
    rw [grid_row_first_cell_eq count p1 p2 sizes_mm gX gY mr mpr (.enum .center) vArg
      mW mH r hr]
    simp only [coerce_anchor, startX, availWft_eq]
    ring
  · intro hv; subst hv
    rw [H]
    simp only [coerce_anchor, rowBottomAt]
    push_cast
    ring
  · intro hv; subst hv
    rw [H]
    simp only [coerce_anchor, rowBottomAt]
    push_cast
    ring
  · intro hv; subst hv
    rw [H]
    simp only [coerce_anchor, rowBottomAt]
    push_cast
    ring

theorem grid_anchor_first_cell_witness :
    ((grid_positions_for_area 1 ⟨0, 0, 0⟩ ⟨mm_to_ft 1000, mm_to_ft 1000, 0⟩ none
        10 10 3 6 (.enum .left) (.enum .top) 20 20).getD
        (rowStartIdx
          (gridPacked 1 ⟨0, 0, 0⟩ ⟨mm_to_ft 1000, mm_to_ft 1000, 0⟩ none 10 10 3 6 20 20)
          0) ⟨0, 0, 0⟩).x -
      mm_to_ft
        (((gridPacked 1 ⟨0, 0, 0⟩ ⟨mm_to_ft 1000, mm_to_ft 1000, 0⟩ none
            10 10 3 6 20 20).getD 0 []).headD (0, 0)).1 / 2 =
      minX ⟨0, 0, 0⟩ ⟨mm_to_ft 1000, mm_to_ft 1000, 0⟩ :=
  (grid_anchor_first_cell 1 ⟨0, 0, 0⟩ ⟨mm_to_ft 1000, mm_to_ft 1000, 0⟩ none 10 10 3 6
    (.enum .left) (.enum .top) 20 20 (by norm_num) (by norm_num) (by decide)).1 rfl
    0 (by decide)
